import Mathlib

/-!
Verification of the conversation-session orchestration pipeline of the
azure-chatbot repository (src/azure-chatbot/example.py), as a shallow
embedding in Lean 4.

Modelling conventions, each noted again at the definition it concerns:

* An instant of UTC time is modelled as a `Nat`.  The code renders the same
  instant twice, as `str(current_time.timestamp())` for the document id and
  as `current_time.isoformat()` for the `timestamp` field; both renderings
  are injective and order-preserving images of the instant (ISO-8601 strings
  of a fixed width compare lexicographically exactly as the instants do), so
  both fields are modelled by the instant itself.
* The Cosmos DB container is modelled as a `List ChatTurn` of the stored
  documents.  `SELECT * FROM c WHERE c.userId = @userId ORDER BY c.timestamp
  DESC` is modelled as a filter followed by a sort that is descending in the
  `timestamp` field; `upsert_item` replaces the document with the same id in
  the same partition when one exists and appends otherwise; `delete_item`
  over the queried items removes every document of the user.
* Outcomes of the three external service calls made during one turn are
  inputs of the model (`TurnEnv`): the Content Safety response (or an
  `HttpResponseError`), the Semantic Kernel completion (or a transport
  failure), whether the store write raises, and the current time.
* A Python exception that no handler catches is modelled by the
  `StepResult.crash` / `SessionOutcome.crashed` constructors: `main` has no
  try/except, and `asyncio.run(main())` lets any exception escape, so a
  crash of one turn terminates the whole session process.
-/

/-! ## Safety gate: `analyze_text` (example.py lines 108-143) -/

/-- The four fixed harm categories of `TextCategory` used by `analyze_text`. -/
inductive TextCategory where
  | hate
  | self_harm
  | sexual
  | violence
deriving DecidableEq, Repr

/-- One element of `response.categories_analysis`: a category together with
its severity score. -/
structure CategoriesAnalysisItem where
  category : TextCategory
  severity : Nat
deriving DecidableEq, Repr

/-- The lookup `next((item for item in response.categories_analysis if
item.category == c), None)`: the first analysis item of category `c`, if any. -/
def first_category_item (c : TextCategory) (items : List CategoriesAnalysisItem) :
    Option CategoriesAnalysisItem :=
  items.find? (fun item => item.category = c)

/-- The `results` dictionary built by `analyze_text`: one optional analysis
item per fixed category. -/
structure AnalyzeResults where
  hate : Option CategoriesAnalysisItem
  self_harm : Option CategoriesAnalysisItem
  sexual : Option CategoriesAnalysisItem
  violence : Option CategoriesAnalysisItem
deriving DecidableEq, Repr

/-- Building the `results` dictionary from the response items. -/
def results_of (items : List CategoriesAnalysisItem) : AnalyzeResults :=
  { hate := first_category_item .hate items
    self_harm := first_category_item .self_harm items
    sexual := first_category_item .sexual items
    violence := first_category_item .violence items }

/-- `threshold = 2` of `analyze_text`. -/
def threshold : Nat := 2

/-- The Python truth test `result and result.severity >= threshold` for one
entry of the `results` dictionary (`None` is falsy). -/
def exceeds_threshold (r : Option CategoriesAnalysisItem) : Bool :=
  match r with
  | some item => decide (item.severity ≥ threshold)
  | none => false

/-- `is_safe = not any(result and result.severity >= threshold for result in
results.values())`. -/
def is_safe_of (rs : AnalyzeResults) : Bool :=
  !(exceeds_threshold rs.hate || exceeds_threshold rs.self_harm ||
    exceeds_threshold rs.sexual || exceeds_threshold rs.violence)

/-- `analyze_text`, lines 108-143.  The argument is the outcome of the
Content Safety call: `Except.error ()` models an `HttpResponseError`.  On
success the function returns `(is_safe, results)`; the except branch prints
the error and falls off the end of the function, so the caller receives
Python `None`, modelled by `Option.none`. -/
def analyze_text (resp : Except Unit (List CategoriesAnalysisItem)) :
    Option (Bool × AnalyzeResults) :=
  match resp with
  | .error _ => none
  | .ok items =>
      let results := results_of items
      some (is_safe_of results, results)

/-! ## History store: the Cosmos DB container (example.py lines 159-232) -/

/-- One stored document, the fields of the dictionary upserted by
`_store_interaction_sync` (lines 176-182).  `id` models
`str(current_time.timestamp())` and `timestamp` models
`current_time.isoformat()`, both as the underlying instant (a `Nat`). -/
structure ChatTurn where
  id : Nat
  user_message : String
  bot_response : String
  timestamp : Nat
  userId : String
deriving DecidableEq, Repr

/-- The document `_store_interaction_sync` builds at instant `now`. -/
def interaction_item (uid : String) (now : Nat)
    (user_message chat_response : String) : ChatTurn :=
  { id := now
    user_message := user_message
    bot_response := chat_response
    timestamp := now
    userId := uid }

/-- `container.upsert_item`: replace the document with the same id in the
same partition when one exists, append otherwise (never an error). -/
def upsert_item (doc : ChatTurn) (store : List ChatTurn) : List ChatTurn :=
  if store.any (fun t => t.id = doc.id ∧ t.userId = doc.userId) then
    store.map (fun t => if t.id = doc.id ∧ t.userId = doc.userId then doc else t)
  else
    store ++ [doc]

/-- `_store_interaction_sync` (lines 167-182): upsert the interaction
document built at the current instant. -/
def store_interaction_sync (uid : String) (now : Nat)
    (user_message chat_response : String) (store : List ChatTurn) : List ChatTurn :=
  upsert_item (interaction_item uid now user_message chat_response) store

/-- The sort order of `ORDER BY c.timestamp DESC`: `a` comes no later than
`b` in the result when the timestamp of `b` is at most that of `a`. -/
def ts_ge (a b : ChatTurn) : Prop := b.timestamp ≤ a.timestamp

instance : DecidableRel ts_ge := fun a b => Nat.decLe b.timestamp a.timestamp

instance : IsTotal ChatTurn ts_ge :=
  ⟨fun a b => (Nat.le_total b.timestamp a.timestamp).imp id id⟩

instance : IsTrans ChatTurn ts_ge :=
  ⟨fun _ _ _ hab hbc => Nat.le_trans hbc hab⟩

/-- The query of `_load_historical_context_sync` (line 198): all documents of
the user, ordered by timestamp descending. -/
def query_user_turns_desc (uid : String) (store : List ChatTurn) : List ChatTurn :=
  List.insertionSort ts_ge (store.filter (fun t => t.userId = uid))

/-- `_load_historical_context_sync` (lines 192-208): query the documents of
the user ordered by timestamp descending, keep `items[:5]`, and join the
lines `User: ...` / `ChatBot: ...` with newlines, in that (descending)
order. -/
def load_historical_context_sync (uid : String) (store : List ChatTurn) : String :=
  let items := query_user_turns_desc uid store
  let history_items := items.take 5
  String.intercalate "\n"
    (history_items.map
      (fun item => "User: " ++ item.user_message ++ "\nChatBot: " ++ item.bot_response))

/-- `_clear_historical_context_sync` (lines 218-232): query the documents of
the user and delete each of them; the net effect on the container is to keep
exactly the documents of the other users, in order. -/
def clear_historical_context_sync (uid : String) (store : List ChatTurn) :
    List ChatTurn :=
  store.filter (fun t => ¬ t.userId = uid)

/-! ## Session orchestrator: `main` (example.py lines 234-285) -/

/-- How `main` routes one input line: the `if`/`elif` chain on
`user_message.lower()` at lines 253-268.  The chain compares the lowercased
input in full; it never trims it. -/
inductive RouteKind where
  | exitCmd
  | historyCmd
  | clearCmd
  | message
deriving DecidableEq, Repr

/-- Python `str.lower()` as the code applies it to the input line, modelled
character by character (for the ASCII command words compared against, this
is exactly what `str.lower()` does). -/
def py_lower (s : String) : String := ⟨s.data.map Char.toLower⟩

/-- Python `str.strip()`: drop leading and trailing whitespace.  The code
never calls it; it is needed to state what the specification words say. -/
def py_strip (s : String) : String :=
  ⟨((s.data.dropWhile Char.isWhitespace).reverse.dropWhile Char.isWhitespace).reverse⟩

/-- The routing of `main`: `user_message.lower() == 'exit'` and so on, on the
full untrimmed input. -/
def route (input : String) : RouteKind :=
  if py_lower input = "exit" then .exitCmd
  else if py_lower input = "history" then .historyCmd
  else if py_lower input = "clear" then .clearCmd
  else .message

/-- Routing as the specification words it: a case-insensitive match on the
full trimmed input.  Kept apart from `route` (the code), to be compared with
it. -/
def route_spec_trimmed (input : String) : RouteKind :=
  if py_lower (py_strip input) = "exit" then .exitCmd
  else if py_lower (py_strip input) = "history" then .historyCmd
  else if py_lower (py_strip input) = "clear" then .clearCmd
  else .message

/-- A Python exception no handler catches, by the site that raises it:
`typeError` is `is_safe, _ = None` failing to unpack at line 270,
`generationError` a failure of the Semantic Kernel call (lines 145-157,
no try/except), `storeError` a failure of the Cosmos DB upsert (lines
167-182, no try/except). -/
inductive PyError where
  | typeError
  | generationError
  | storeError
deriving DecidableEq, Repr

/-- The outcomes of the external service calls made during one turn, inputs
of the model: the Content Safety response (`Except.error ()` for an
`HttpResponseError`), the completion returned by the Semantic Kernel
(`Except.error ()` for a transport or service failure), whether the store
upsert raises, and the current UTC instant. -/
structure TurnEnv where
  safetyResp : Except Unit (List CategoriesAnalysisItem)
  genResp : Except Unit String
  storeFails : Bool
  now : Nat
deriving Repr

/-- What one pass of the `while True` body does: return to awaiting input
(with the new store contents and the lines printed), leave the loop
(`break`), or raise an exception that nothing in `main` catches. -/
inductive StepResult where
  | cont (store : List ChatTurn) (output : List String)
  | exitLoop (store : List ChatTurn)
  | crash (e : PyError) (store : List ChatTurn)
deriving DecidableEq, Repr

/-- The store contents when the step ends, in every outcome. -/
def result_store (r : StepResult) : List ChatTurn :=
  match r with
  | .cont store _ => store
  | .exitLoop store => store
  | .crash _ store => store

/-- The `else` branch of `main` (lines 268-282): `is_safe, _ =
await chatbot_service.analyze_text(user_message)` — unpacking `None` raises
a `TypeError` — then, when safe, load the history, call the kernel (a
failure propagates), print the response, and store the interaction (a
failure propagates); when unsafe, print the refusal notice. -/
def process_message (uid : String) (env : TurnEnv) (store : List ChatTurn)
    (user_message : String) : StepResult :=
  match analyze_text env.safetyResp with
  | none => .crash .typeError store
  | some (is_safe, _) =>
      if is_safe then
        match env.genResp with
        | .error _ => .crash .generationError store
        | .ok chat_response =>
            if env.storeFails then .crash .storeError store
            else
              .cont (store_interaction_sync uid env.now user_message chat_response store)
                ["Chatbot: " ++ chat_response]
      else
        .cont store
          ["Chatbot: Your message is not safe to process. Please rephrase and try again."]

/-- One pass of the `while True` body of `main` (lines 250-282) on the input
line read by `input("You: ")`. -/
def step (uid : String) (env : TurnEnv) (store : List ChatTurn)
    (user_message : String) : StepResult :=
  if py_lower user_message = "exit" then .exitLoop store
  else if py_lower user_message = "history" then
    .cont store [load_historical_context_sync uid store]
  else if py_lower user_message = "clear" then
    .cont (clear_historical_context_sync uid store) ["Chat history cleared."]
  else process_message uid env store user_message

/-- How a whole session ends: the loop left by `exit` or the input exhausted,
or an uncaught exception that terminates the process (nothing catches it in
`main`, and `asyncio.run(main())` re-raises it). -/
inductive SessionOutcome where
  | finished (store : List ChatTurn)
  | crashed (e : PyError) (store : List ChatTurn)
deriving DecidableEq, Repr

/-- Running the `while True` loop of `main` over a sequence of input lines,
each paired with the outcomes of its external calls. -/
def run_session (uid : String) : List (String × TurnEnv) → List ChatTurn → SessionOutcome
  | [], store => .finished store
  | (input, env) :: rest, store =>
      match step uid env store input with
      | .cont store' _ => run_session uid rest store'
      | .exitLoop store' => .finished store'
      | .crash e store' => .crashed e store'

/-! ## Helper lemmas -/

/-- On an input routed as a chat message, the loop body is the `else` branch. -/
theorem step_message_eq (uid : String) (env : TurnEnv) (store : List ChatTurn)
    (input : String) (h : route input = RouteKind.message) :
    step uid env store input = process_message uid env store input := by
  by_cases h1 : py_lower input = "exit"
  · simp [route, h1] at h
  · by_cases h2 : py_lower input = "history"
    · simp [route, h1, h2] at h
    · by_cases h3 : py_lower input = "clear"
      · simp [route, h1, h2, h3] at h
      · simp [step, h1, h2, h3]

/-- With a safe verdict, a successful completion and a working store, the
`else` branch stores the interaction and prints the response. -/
theorem process_message_safe_stores (uid : String) (env : TurnEnv)
    (store : List ChatTurn) (input : String) (r : AnalyzeResults)
    (chat_response : String)
    (hs : analyze_text env.safetyResp = some (true, r))
    (hg : env.genResp = .ok chat_response) (hst : env.storeFails = false) :
    process_message uid env store input
      = .cont (store_interaction_sync uid env.now input chat_response store)
          ["Chatbot: " ++ chat_response] := by
  simp [process_message, hs, hg, hst]

/-- One entry of the `results` dictionary is below the threshold exactly when
the found item, if any, has severity strictly below the threshold. -/
theorem exceeds_threshold_eq_false (r : Option CategoriesAnalysisItem) :
    exceeds_threshold r = false ↔
      ∀ item, r = some item → item.severity < threshold := by
  cases r with
  | none => simp [exceeds_threshold]
  | some item => simp [exceeds_threshold, Nat.not_le, Nat.lt_iff_add_one_le]

/-! ## The claims -/

/-- C2: on a successful classification over the four fixed categories,
`analyze_text` computes `is_safe = true` exactly when every present
category's severity is strictly below the threshold 2; an absent category
(no item found for it) never counts against safety, as if its severity were
zero.  Equivalently, if any present category has severity at least 2 the
result is not safe. -/
theorem is_safe_iff_all_below_threshold (items : List CategoriesAnalysisItem) :
    is_safe_of (results_of items) = true ↔
      ∀ c : TextCategory, ∀ item, first_category_item c items = some item →
        item.severity < threshold := by
  have h4 : ∀ o : Option CategoriesAnalysisItem,
      exceeds_threshold o = false ↔
        ∀ item, o = some item → item.severity < threshold :=
    exceeds_threshold_eq_false
  constructor
  · intro hsafe c item hfind
    have hsplit : ((exceeds_threshold (first_category_item TextCategory.hate items) = false
        ∧ exceeds_threshold (first_category_item TextCategory.self_harm items) = false)
        ∧ exceeds_threshold (first_category_item TextCategory.sexual items) = false)
        ∧ exceeds_threshold (first_category_item TextCategory.violence items) = false := by
      simpa [is_safe_of, results_of, Bool.or_eq_false_iff] using hsafe
    cases c
    · exact (h4 _).mp hsplit.1.1.1 item hfind
    · exact (h4 _).mp hsplit.1.1.2 item hfind
    · exact (h4 _).mp hsplit.1.2 item hfind
    · exact (h4 _).mp hsplit.2 item hfind
  · intro hall
    have h1 := (h4 _).mpr (hall TextCategory.hate)
    have h2 := (h4 _).mpr (hall TextCategory.self_harm)
    have h3 := (h4 _).mpr (hall TextCategory.sexual)
    have hv := (h4 _).mpr (hall TextCategory.violence)
    simp [is_safe_of, results_of, h1, h2, h3, hv]

/-- C7: `clear` keeps no turn of the given user, keeps every turn of every
other user, and is a sublist of the original store (the surviving turns keep
their order: nothing else is touched). -/
theorem clear_removes_only_user_turns (uid : String) (store : List ChatTurn) :
    (∀ t ∈ clear_historical_context_sync uid store, t.userId ≠ uid)
    ∧ (∀ t, t.userId ≠ uid →
        (t ∈ clear_historical_context_sync uid store ↔ t ∈ store))
    ∧ (clear_historical_context_sync uid store).Sublist store := by
  refine ⟨?_, ?_, ?_⟩
  · intro t ht
    have := List.mem_filter.mp ht
    simpa using this.2
  · intro t hne
    simp [clear_historical_context_sync, List.mem_filter, hne]
  · exact List.filter_sublist _

/-- C8: on a store holding no turn of the given user (in particular an empty
history for that user), `clear` leaves the store unchanged, and so does a
second `clear` right after it; neither call fails (the model is a total
function). -/
theorem clear_idempotent_on_empty_history (uid : String) (store : List ChatTurn)
    (h : ∀ t ∈ store, t.userId ≠ uid) :
    clear_historical_context_sync uid store = store
    ∧ clear_historical_context_sync uid (clear_historical_context_sync uid store)
        = store := by
  have h1 : clear_historical_context_sync uid store = store := by
    rw [clear_historical_context_sync, List.filter_eq_self]
    intro t ht
    simpa using h t ht
  exact ⟨h1, by rw [h1, h1]⟩

/-- C8 witness: both clears are no-ops on a store that holds only a turn of
another user. -/
theorem clear_idempotent_on_empty_history_witness :
    clear_historical_context_sync "alice" [⟨2, "e", "f", 2, "bob"⟩]
        = [⟨2, "e", "f", 2, "bob"⟩]
    ∧ clear_historical_context_sync "alice"
        (clear_historical_context_sync "alice" [⟨2, "e", "f", 2, "bob"⟩])
        = [⟨2, "e", "f", 2, "bob"⟩] :=
  clear_idempotent_on_empty_history "alice" [⟨2, "e", "f", 2, "bob"⟩] (by decide)

/-- C6 counterexample: the code does not trim the input before matching.
On the input `" exit"` (a leading space), matching on the trimmed input
would recognize the exit command and end the loop, but the code routes it as
an ordinary chat message and runs the `else` branch. -/
theorem padded_exit_treated_as_message :
    route_spec_trimmed " exit" = RouteKind.exitCmd
    ∧ route " exit" = RouteKind.message
    ∧ step "alice" ⟨.ok [], .ok "hi", false, 0⟩ [] " exit"
        = process_message "alice" ⟨.ok [], .ok "hi", false, 0⟩ [] " exit" := by
  refine ⟨by decide, by decide, ?_⟩
  rfl

/-- C6 (amended): the orchestrator recognizes the commands by a
case-insensitive match on the full input exactly as entered, with no
trimming: `exit` ends the loop, `history` reads and displays the stored
history, `clear` deletes the history of the user and confirms, and any input
whose lowercasing is none of the three command words — including one that is
a command word surrounded by whitespace — is treated as a chat message. -/
theorem commands_matched_on_full_untrimmed_input (uid : String) (env : TurnEnv)
    (store : List ChatTurn) (input : String) :
    (py_lower input = "exit" → step uid env store input = .exitLoop store)
    ∧ (py_lower input = "history" →
        step uid env store input
          = .cont store [load_historical_context_sync uid store])
    ∧ (py_lower input = "clear" →
        step uid env store input
          = .cont (clear_historical_context_sync uid store) ["Chat history cleared."])
    ∧ (py_lower input ≠ "exit" → py_lower input ≠ "history" → py_lower input ≠ "clear" →
        step uid env store input = process_message uid env store input) := by
  refine ⟨?_, ?_, ?_, ?_⟩
  · intro h
    simp [step, h]
  · intro h
    simp [step, h]
  · intro h
    simp [step, h]
  · intro h1 h2 h3
    simp [step, h1, h2, h3]

/-- C1: on a chat-message input with an operational store, a turn is
persisted exactly when the safety verdict was safe and the completion call
succeeded: in that case the store gains the interaction document and the
response is printed; in every other case — classification failed (the call
raised), the verdict was unsafe, the completion call failed, or the store
write raised — the store is exactly what it was, so no partial turn (a user
message without a bot response) is ever persisted. -/
theorem turn_persisted_iff_safe_and_generated (uid : String) (env : TurnEnv)
    (store : List ChatTurn) (input : String)
    (hroute : route input = RouteKind.message) :
    (∀ r chat_response, analyze_text env.safetyResp = some (true, r) →
        env.genResp = .ok chat_response → env.storeFails = false →
        step uid env store input
          = .cont (store_interaction_sync uid env.now input chat_response store)
              ["Chatbot: " ++ chat_response])
    ∧ ((analyze_text env.safetyResp = none
        ∨ (∃ r, analyze_text env.safetyResp = some (false, r))
        ∨ env.genResp = .error ()
        ∨ env.storeFails = true) →
        result_store (step uid env store input) = store) := by
  rw [step_message_eq uid env store input hroute]
  constructor
  · intro r chat_response hs hg hst
    exact process_message_safe_stores uid env store input r chat_response hs hg hst
  · intro hcase
    rcases hcase with hnone | ⟨r, hfalse⟩ | herr | hst
    · simp [process_message, hnone, result_store]
    · simp [process_message, hfalse, result_store]
    · cases hsr : analyze_text env.safetyResp with
      | none => simp [process_message, hsr, result_store]
      | some p =>
        obtain ⟨b, r⟩ := p
        cases b
        · simp [process_message, hsr, result_store]
        · simp [process_message, hsr, herr, result_store]
    · cases hsr : analyze_text env.safetyResp with
      | none => simp [process_message, hsr, result_store]
      | some p =>
        obtain ⟨b, r⟩ := p
        cases b
        · simp [process_message, hsr, result_store]
        · cases hg : env.genResp with
          | error e => simp [process_message, hsr, hg, result_store]
          | ok chat_response => simp [process_message, hsr, hg, hst, result_store]

/-- C1 witness: a safe message with a successful completion and a working
store is persisted with its response. -/
theorem turn_persisted_iff_safe_and_generated_witness :
    step "alice" ⟨.ok [⟨.hate, 0⟩], .ok "hi", false, 7⟩ [] "hello"
      = .cont (store_interaction_sync "alice" 7 "hello" "hi" []) ["Chatbot: hi"] :=
  (turn_persisted_iff_safe_and_generated "alice" ⟨.ok [⟨.hate, 0⟩], .ok "hi", false, 7⟩
      [] "hello" (by decide)).1 (results_of [⟨.hate, 0⟩]) "hi" rfl rfl rfl

/-- C3: when the classification call raises, `analyze_text` catches the
error, logs it, and returns Python `None`; the current message is then
neither treated as safe nor processed further (no history read, no
generation, no persistence: the store is unchanged) — but the orchestrator
does NOT return to awaiting input as the claim states: unpacking `is_safe, _
= None` at line 270 raises a `TypeError` that nothing catches, so the whole
session terminates, whatever inputs were still pending. -/
theorem classification_failure_crashes_session (uid : String) (env : TurnEnv)
    (store : List ChatTurn) (input : String) (rest : List (String × TurnEnv))
    (hroute : route input = RouteKind.message)
    (hfail : env.safetyResp = .error ()) :
    step uid env store input = .crash .typeError store
    ∧ run_session uid ((input, env) :: rest) store = .crashed .typeError store := by
  have hstep : step uid env store input = .crash .typeError store := by
    rw [step_message_eq uid env store input hroute]
    simp [process_message, analyze_text, hfail]
  exact ⟨hstep, by simp [run_session, hstep]⟩

/-- C3 witness: a turn whose classification call raises crashes the session
even though another input was pending, and the store stays empty. -/
theorem classification_failure_crashes_session_witness :
    step "alice" ⟨.error (), .ok "hi", false, 7⟩ [] "hello"
        = .crash .typeError []
    ∧ run_session "alice"
        [("hello", ⟨.error (), .ok "hi", false, 7⟩),
         ("again", ⟨.ok [], .ok "hi", false, 8⟩)] []
        = .crashed .typeError [] :=
  classification_failure_crashes_session "alice" ⟨.error (), .ok "hi", false, 7⟩
    [] "hello" [("again", ⟨.ok [], .ok "hi", false, 8⟩)] (by decide) rfl

/-- C5: generation and store failures are caught nowhere: on a safe chat
message, if the completion call fails the session ends with the uncaught
generation error, and if the store write raises the session ends with the
uncaught store error — in both cases whatever inputs were still pending are
never processed, and the store is unchanged. -/
theorem generation_and_store_failures_terminate_session (uid : String)
    (env : TurnEnv) (store : List ChatTurn) (input : String)
    (rest : List (String × TurnEnv)) (r : AnalyzeResults)
    (hroute : route input = RouteKind.message)
    (hsafe : analyze_text env.safetyResp = some (true, r)) :
    (env.genResp = .error () →
      run_session uid ((input, env) :: rest) store = .crashed .generationError store)
    ∧ (∀ chat_response, env.genResp = .ok chat_response → env.storeFails = true →
      run_session uid ((input, env) :: rest) store = .crashed .storeError store) := by
  constructor
  · intro hg
    have hstep : step uid env store input = .crash .generationError store := by
      rw [step_message_eq uid env store input hroute]
      simp [process_message, hsafe, hg]
    simp [run_session, hstep]
  · intro chat_response hg hst
    have hstep : step uid env store input = .crash .storeError store := by
      rw [step_message_eq uid env store input hroute]
      simp [process_message, hsafe, hg, hst]
    simp [run_session, hstep]

/-- C5 witness: a failing completion call and a failing store write each end
the session with the corresponding uncaught error, dropping a pending input. -/
theorem generation_and_store_failures_terminate_session_witness :
    run_session "alice"
        [("boom", ⟨.ok [], .error (), false, 3⟩), ("next", ⟨.ok [], .ok "hi", false, 4⟩)] []
        = .crashed .generationError []
    ∧ run_session "alice"
        [("boom", ⟨.ok [], .ok "hi", true, 3⟩), ("next", ⟨.ok [], .ok "hi", false, 4⟩)] []
        = .crashed .storeError [] :=
  ⟨(generation_and_store_failures_terminate_session "alice"
      ⟨.ok [], .error (), false, 3⟩ [] "boom" [("next", ⟨.ok [], .ok "hi", false, 4⟩)]
      (results_of []) (by decide) rfl).1 rfl,
   (generation_and_store_failures_terminate_session "alice"
      ⟨.ok [], .ok "hi", true, 3⟩ [] "boom" [("next", ⟨.ok [], .ok "hi", false, 4⟩)]
      (results_of []) (by decide) rfl).2 "hi" rfl rfl⟩

/-- C4: for every user and store contents, the history read keeps at most 5
turns; all of them belong to the user; they are in timestamp-descending
order; they are the most recent ones (every queried turn left out is no
newer than any kept one); the query ranges over exactly the turns of the
user; and the rendering is the alternating `User: ...` / `ChatBot: ...`
lines of those turns in that same descending (most-recent-first) order. -/
theorem history_read_returns_latest_five_descending (uid : String)
    (store : List ChatTurn) :
    ((query_user_turns_desc uid store).take 5).length ≤ 5
    ∧ (∀ t ∈ (query_user_turns_desc uid store).take 5, t.userId = uid)
    ∧ List.Sorted ts_ge ((query_user_turns_desc uid store).take 5)
    ∧ (∀ t ∈ (query_user_turns_desc uid store).drop 5,
        ∀ u ∈ (query_user_turns_desc uid store).take 5, t.timestamp ≤ u.timestamp)
    ∧ (query_user_turns_desc uid store).Perm
        (store.filter (fun t => t.userId = uid))
    ∧ load_historical_context_sync uid store
        = String.intercalate "\n"
            (((query_user_turns_desc uid store).take 5).map
              (fun item =>
                "User: " ++ item.user_message ++ "\nChatBot: " ++ item.bot_response)) := by
  have hperm := List.perm_insertionSort ts_ge (store.filter (fun t => t.userId = uid))
  have hsorted := List.sorted_insertionSort ts_ge (store.filter (fun t => t.userId = uid))
  refine ⟨List.length_take_le 5 _, ?_, ?_, ?_, hperm, rfl⟩
  · intro t ht
    have hmem : t ∈ store.filter (fun t => t.userId = uid) :=
      hperm.mem_iff.mp (List.mem_of_mem_take ht)
    have := List.mem_filter.mp hmem
    simpa using this.2
  · exact List.Pairwise.sublist (List.take_sublist 5 _) hsorted
  · have hsplit : List.Pairwise ts_ge
        ((query_user_turns_desc uid store).take 5
          ++ (query_user_turns_desc uid store).drop 5) := by
      rw [List.take_append_drop]
      exact hsorted
    have hacross := (List.pairwise_append.mp hsplit).2.2
    intro t ht u hu
    exact hacross u hu t ht

/-- C9: every write builds a document whose id is derived from the creation
instant (it is that instant), whose timestamp field is the same current UTC
instant, and whose owner key is the session user id; the write has upsert
semantics: when a document with that id already exists in the partition the
write overwrites it (same number of documents, no error), otherwise the new
document is appended. -/
theorem write_creates_timestamped_turn_with_upsert (uid : String) (now : Nat)
    (user_message chat_response : String) (store : List ChatTurn) :
    (interaction_item uid now user_message chat_response).id = now
    ∧ (interaction_item uid now user_message chat_response).timestamp = now
    ∧ (interaction_item uid now user_message chat_response).userId = uid
    ∧ interaction_item uid now user_message chat_response
        ∈ store_interaction_sync uid now user_message chat_response store
    ∧ ((∃ t ∈ store, t.id = now ∧ t.userId = uid) →
        (store_interaction_sync uid now user_message chat_response store).length
          = store.length)
    ∧ ((¬ ∃ t ∈ store, t.id = now ∧ t.userId = uid) →
        store_interaction_sync uid now user_message chat_response store
          = store ++ [interaction_item uid now user_message chat_response]) := by
  have hid : (interaction_item uid now user_message chat_response).id = now := rfl
  have huid : (interaction_item uid now user_message chat_response).userId = uid := rfl
  have hany : (store.any (fun t =>
        t.id = (interaction_item uid now user_message chat_response).id
        ∧ t.userId = (interaction_item uid now user_message chat_response).userId)
        = true)
      ↔ ∃ t ∈ store, t.id = now ∧ t.userId = uid := by
    simp [interaction_item, List.any_eq_true]
  refine ⟨rfl, rfl, rfl, ?_, ?_, ?_⟩
  · by_cases hcoll : ∃ t ∈ store, t.id = now ∧ t.userId = uid
    · obtain ⟨t, htmem, htprop⟩ := hcoll
      have : store_interaction_sync uid now user_message chat_response store
          = store.map (fun t =>
              if t.id = (interaction_item uid now user_message chat_response).id
                ∧ t.userId = (interaction_item uid now user_message chat_response).userId
              then interaction_item uid now user_message chat_response else t) := by
        rw [store_interaction_sync, upsert_item, if_pos]
        exact hany.mpr ⟨t, htmem, htprop⟩
      rw [this]
      refine List.mem_map.mpr ⟨t, htmem, ?_⟩
      simp [interaction_item, htprop.1, htprop.2]
    · have : store_interaction_sync uid now user_message chat_response store
          = store ++ [interaction_item uid now user_message chat_response] := by
        rw [store_interaction_sync, upsert_item, if_neg]
        intro h
        exact hcoll (hany.mp h)
      rw [this]
      exact List.mem_append_right _ (List.mem_singleton.mpr rfl)
  · intro hcoll
    have : store_interaction_sync uid now user_message chat_response store
        = store.map (fun t =>
            if t.id = (interaction_item uid now user_message chat_response).id
              ∧ t.userId = (interaction_item uid now user_message chat_response).userId
            then interaction_item uid now user_message chat_response else t) := by
      rw [store_interaction_sync, upsert_item, if_pos]
      exact hany.mpr hcoll
    rw [this, List.length_map]
  · intro hcoll
    rw [store_interaction_sync, upsert_item, if_neg]
    intro h
    exact hcoll (hany.mp h)

/-- C10: the empty input line is not recognized as a command — the routing
falls through to the chat-message path — and it is then processed like any
other message: the step is the `else` branch (classifier first), and when
the verdict is safe and the completion and the store write succeed, the
empty message is answered and persisted. -/
theorem empty_input_processed_as_message (uid : String) (env : TurnEnv)
    (store : List ChatTurn) :
    route "" = RouteKind.message
    ∧ step uid env store "" = process_message uid env store ""
    ∧ (∀ r chat_response, analyze_text env.safetyResp = some (true, r) →
        env.genResp = .ok chat_response → env.storeFails = false →
        step uid env store ""
          = .cont (store_interaction_sync uid env.now "" chat_response store)
              ["Chatbot: " ++ chat_response]) := by
  have hroute : route "" = RouteKind.message := by decide
  have hstep : step uid env store "" = process_message uid env store "" :=
    step_message_eq uid env store "" hroute
  refine ⟨hroute, hstep, ?_⟩
  intro r chat_response hs hg hst
  rw [hstep]
  exact process_message_safe_stores uid env store "" r chat_response hs hg hst
